import Mathlib

/-!
Verification of the retry/conversation core of the `q` repository
(`src/src/client.py`, `src/src/agent.py`) against its specification.

The Python code is shallowly embedded: exceptions become an explicit
error type threaded through `Except`, the nondeterministic outcome of
successive network attempts becomes a function from the attempt index to
an `Except` outcome, and the two retry wrappers become a fuelled
recursion whose instrumentation records how many underlying calls and
backoff sleeps happened.
-/

set_option autoImplicit false

namespace Q

/-- A chat message, `{role: str, content: str}` as in the type alias
`Messages = list[dict[str, str]]` of `client.py`.  Roles are plain strings in the
source, so they are plain strings here. -/
structure Message where
  role : String
  content : String
deriving DecidableEq, Repr

/-- The Python exceptions that flow through this core: the provider SDK
error classes inspected by `_should_retry` (`RateLimitError`,
`APIConnectionError`, `APITimeoutError`, `InternalServerError`,
`APIStatusError` with a status code), the built-in `ValueError` raised
by `_validate_auth`, and the `q.utils.exceptions` taxonomy members the
spec names (`GenerationError`, `AuthenticationError`). -/
inductive PyErr where
  | valueError (msg : String)
  | generationError (msg : String)
  | authenticationError (msg : String)
  | rateLimitError
  | apiConnectionError
  | apiTimeoutError
  | internalServerError
  | apiStatusError (status_code : Nat)
deriving DecidableEq, Repr

/-- A crude rendering of the Python `str(e)` text, used only to build the
f-string messages of `_validate_auth`. -/
def pyStr : PyErr → String
  | .valueError m => m
  | .generationError m => m
  | .authenticationError m => m
  | .rateLimitError => "rate limit error"
  | .apiConnectionError => "api connection error"
  | .apiTimeoutError => "api timeout error"
  | .internalServerError => "internal server error"
  | .apiStatusError s => "status error " ++ toString s

def PyErr.isGenerationError : PyErr → Bool
  | .generationError _ => true
  | _ => false

def PyErr.isAuthenticationError : PyErr → Bool
  | .authenticationError _ => true
  | _ => false

/-- What one run of the retry loop did: its final outcome, how many
times the wrapped function was invoked, and how many backoff sleeps
were performed. -/
structure RetryTrace (ε α : Type) where
  result : Except ε α
  calls : Nat
  sleeps : Nat
deriving Repr

namespace BaseClient

/-- The constant `JITTER_PERCENTAGE = 0.1` from `client.py`. -/
def JITTER_PERCENTAGE : ℚ := 1/10

/-- The constant `DEFAULT_MAX_RETRIES = 3` from `client.py`. -/
def DEFAULT_MAX_RETRIES : Nat := 3

/-- Embeds `BaseClient._calc_backoff`: `base_delay = backoff_factor ** attempt;
jitter = random.uniform(0, JITTER_PERCENTAGE * base_delay); return
base_delay + jitter`.  The sampled jitter is passed explicitly; the
sampling range is a hypothesis of the theorems about it. -/
def calc_backoff (backoff_factor : ℚ) (attempt : Nat) (jitter : ℚ) : ℚ :=
  backoff_factor ^ attempt + jitter

/-- The loop body shared verbatim by `_retry_wrapper` and
`_async_retry_wrapper`:

```
for attempt in range(self.max_retries + 1):
    try:
        return func(...)
    except Exception as e:
        if attempt == self.max_retries or not self._should_retry(e):
            raise e
        sleep(self._calc_backoff(attempt))
```

`call i` is the outcome of the `i`-th invocation of `func`; `remaining`
is `max_retries - attempt`, so `remaining = 0` is exactly the
`attempt == self.max_retries` test. -/
def retryFrom (should_retry : PyErr → Bool) (call : Nat → Except PyErr String) :
    Nat → Nat → RetryTrace PyErr String
  | attempt, 0 =>
    match call attempt with
    | .ok v => ⟨.ok v, 1, 0⟩
    | .error e => ⟨.error e, 1, 0⟩
  | attempt, r + 1 =>
    match call attempt with
    | .ok v => ⟨.ok v, 1, 0⟩
    | .error e =>
      if should_retry e then
        let t := retryFrom should_retry call (attempt + 1) r
        ⟨t.result, t.calls + 1, t.sleeps + 1⟩
      else ⟨.error e, 1, 0⟩

/-- Embeds `BaseClient._retry_wrapper(func)` with `call i` the outcome of the
`i`-th invocation of `func`. -/
def retry_wrapper (should_retry : PyErr → Bool) (max_retries : Nat)
    (call : Nat → Except PyErr String) : RetryTrace PyErr String :=
  retryFrom should_retry call 0 max_retries

/-- Embeds `BaseClient._async_retry_wrapper`: the source duplicates the loop of
`_retry_wrapper` with `await asyncio.sleep` in place of `time.sleep`;
the sleep flavour does not affect the outcome, call count or sleep
count, so the embedding is the same recursion. -/
def async_retry_wrapper (should_retry : PyErr → Bool) (max_retries : Nat)
    (call : Nat → Except PyErr String) : RetryTrace PyErr String :=
  retryFrom should_retry call 0 max_retries

/-- Embeds `BaseClient.prompt`: wraps `_make_request` (lazy client creation,
`_prompt_sync`, `_extract_text`) in `_retry_wrapper`.  `call i` is the
outcome of the `i`-th `_make_request` attempt, already reduced to the
extracted text or the raised exception. -/
def prompt (should_retry : PyErr → Bool) (max_retries : Nat)
    (call : Nat → Except PyErr String) : RetryTrace PyErr String :=
  retry_wrapper should_retry max_retries call

/-- Embeds `BaseClient.prompt_async`: same shape through
`_async_retry_wrapper`. -/
def prompt_async (should_retry : PyErr → Bool) (max_retries : Nat)
    (call : Nat → Except PyErr String) : RetryTrace PyErr String :=
  async_retry_wrapper should_retry max_retries call

end BaseClient

namespace OpenAIClient

/-- Embeds `OpenAIClient._should_retry`: retry on `RateLimitError`,
`APIConnectionError`, `APITimeoutError`, `InternalServerError`, and on a
generic `APIStatusError` whose code is 429 or in 500..599; everything
else is non-retryable. -/
def should_retry : PyErr → Bool
  | .rateLimitError => true
  | .apiConnectionError => true
  | .apiTimeoutError => true
  | .internalServerError => true
  | .apiStatusError s => s == 429 || (500 ≤ s && s < 600)
  | _ => false

/-- Embeds `OpenAIClient._validate_auth`: runs `test_client.models.list()`
(outcome passed in as `models_list`) and turns any exception `e` into
`ValueError(f"OpenAI authentication failed: {e}")`. -/
def validate_auth (models_list : Except PyErr Unit) : Except PyErr Unit :=
  match models_list with
  | .ok _ => .ok ()
  | .error e => .error (.valueError ("OpenAI authentication failed: " ++ pyStr e))

/-- The state a constructed `OpenAIClient` holds. -/
structure State where
  api_key : String
  max_retries : Nat
  backoff_factor : ℚ
deriving DecidableEq, Repr

/-- Embeds `OpenAIClient.__init__` after a successful `import openai`: stores
the retry configuration and the key, then calls `_validate_auth`
eagerly; a raised exception aborts construction. -/
def init (api_key : String) (max_retries : Nat) (backoff_factor : ℚ)
    (models_list : Except PyErr Unit) : Except PyErr State :=
  match validate_auth models_list with
  | .ok _ => .ok ⟨api_key, max_retries, backoff_factor⟩
  | .error e => .error e

end OpenAIClient

namespace AnthropicClient

/-- Embeds `AnthropicClient._should_retry`: same classification as the OpenAI
variant, over the error classes of the `anthropic` SDK. -/
def should_retry : PyErr → Bool
  | .rateLimitError => true
  | .apiConnectionError => true
  | .apiTimeoutError => true
  | .internalServerError => true
  | .apiStatusError s => s == 429 || (500 ≤ s && s < 600)
  | _ => false

/-- Embeds `AnthropicClient._validate_auth`: a minimal
`test_client.messages.create(...)` call (outcome passed in as
`test_message`); any exception `e` becomes
`ValueError(f"Anthropic authentication failed: {e}")`. -/
def validate_auth (test_message : Except PyErr Unit) : Except PyErr Unit :=
  match test_message with
  | .ok _ => .ok ()
  | .error e => .error (.valueError ("Anthropic authentication failed: " ++ pyStr e))

/-- The state a constructed `AnthropicClient` holds. -/
structure State where
  api_key : String
  max_retries : Nat
  backoff_factor : ℚ
deriving DecidableEq, Repr

/-- Embeds `AnthropicClient.__init__` after a successful `import anthropic`:
eager `_validate_auth`; a raised exception aborts construction. -/
def init (api_key : String) (max_retries : Nat) (backoff_factor : ℚ)
    (test_message : Except PyErr Unit) : Except PyErr State :=
  match validate_auth test_message with
  | .ok _ => .ok ⟨api_key, max_retries, backoff_factor⟩
  | .error e => .error e

/-- Embeds `AnthropicClient._convert_messages`: one pass over the incoming
messages; a `system` message overwrites the `system_message` slot (so
the last one wins) and is not copied into `anthropic_messages`; every
other message is appended in order.  `convertStep` is the body of its
`for msg in messages:` loop. -/
def convertStep (acc : Option String × List Message) (msg : Message) :
    Option String × List Message :=
  if msg.role = "system" then (some msg.content, acc.2)
  else (acc.1, acc.2 ++ [⟨msg.role, msg.content⟩])

def convert_messages (messages : List Message) : Option String × List Message :=
  messages.foldl convertStep (none, [])

/-- The wire-shaped request `AnthropicClient._prompt_sync` hands to
`self._sync_client.messages.create`: the converted message list, the
model id, and the top-level `system` field. -/
structure Request where
  system : Option String
  messages : List Message
  model : String
deriving DecidableEq, Repr

/-- The request-shaping part of `AnthropicClient._prompt_sync` (the
network send itself is outside the embedding). -/
def prompt_sync_request (messages : List Message) (model : String) : Request :=
  let converted := convert_messages messages
  ⟨converted.1, converted.2, model⟩

end AnthropicClient

namespace ConversationAgent

/-- Python truthiness of the optional `system_prompt` argument:
`None` and `""` are falsy. -/
def pyTruthy : Option String → Bool
  | none => false
  | some s => !s.isEmpty

/-- Embeds `ConversationAgent.__init__`: `self.messages = []`, then
`if system_prompt: self.add_system_message(system_prompt)`. -/
def init_messages (system_prompt : Option String) : List Message :=
  if pyTruthy system_prompt then [⟨"system", (system_prompt.getD "")⟩] else []

/-- Embeds `ConversationAgent.prompt` (and `prompt_async`, which differs only
by awaiting): append the user message, snapshot the history, call the
client, and append the reply on success.  `client` maps the history
sent to the extracted reply or the raised exception; an exception
propagates after the user message was appended and before any
assistant message is. -/
def prompt (client : List Message → Except PyErr String)
    (history : List Message) (message : String) :
    Except PyErr String × List Message :=
  let h := history ++ [⟨"user", message⟩]
  match client h with
  | .ok response => (.ok response, h ++ [⟨"assistant", response⟩])
  | .error e => (.error e, h)

/-- Number of `user`-role messages in a history (used to state the
`drop_exchanges` contract). -/
def countUser (messages : List Message) : Nat :=
  (messages.filter (fun m => m.role = "user")).length

/-- The backward scan of `ConversationAgent.drop_exchanges`, running
over `messages` reversed: `found` is `user_messages_found`; when the
`n`-th user message from the end is reached at original index `i`
(which equals the length of the still-unscanned tail), return `some i`;
falling off the front returns `none` (the loop ends without touching
the history). -/
def findDropIdx (n : Nat) : List Message → Nat → Option Nat
  | [], _ => none
  | m :: rest, found =>
    if m.role = "user" then
      if found + 1 = n then some rest.length
      else findDropIdx n rest (found + 1)
    else findDropIdx n rest found

/-- Embeds `ConversationAgent.drop_exchanges(n)`: no-op for `n <= 0`;
otherwise scan backward for the `n`-th user message and truncate with
`self.messages = self.messages[:i]`, or leave the history untouched if
fewer than `n` user messages exist. -/
def drop_exchanges (messages : List Message) (n : Int) : List Message :=
  if n ≤ 0 then messages
  else
    match findDropIdx n.toNat messages.reverse 0 with
    | some i => messages.take i
    | none => messages

end ConversationAgent

namespace BatchAgent

/-- The per-item task of `BatchAgent.batch_prompt`: each prompt string
is sent as the fresh one-message history
`[{"role": "user", "content": message}]` through the client. -/
def itemTask (client : List Message → Except PyErr String)
    (message : String) : Except PyErr String :=
  client [⟨"user", message⟩]

/-- Here `asyncio.gather` keeps one result slot per task, indexed by task
position; tasks finish in some completion order and each writes its own
slot.  `completeTasks` runs the slots to a fixed point over an explicit
completion order (a list of task indices). -/
def gatherStep (tasks : List (Except PyErr String))
    (slots : List (Option (Except PyErr String))) (i : Nat) :
    List (Option (Except PyErr String)) :=
  match tasks.get? i with
  | some r => slots.set i (some r)
  | none => slots

def completeTasks (tasks : List (Except PyErr String)) (order : List Nat) :
    List (Option (Except PyErr String)) :=
  order.foldl (gatherStep tasks) (List.replicate tasks.length none)

/-- Embeds `BatchAgent.batch_prompt` under an explicit completion order: build
one independent task per prompt and gather them by task index. -/
def batch_prompt (client : List Message → Except PyErr String)
    (prompts : List String) (order : List Nat) :
    List (Option (Except PyErr String)) :=
  completeTasks (prompts.map (itemTask client)) order

end BatchAgent

/-! ### Helper lemmas about the retry loop -/

/-- If the next `k` invocations fail retryably and the one after
succeeds, the loop stops at that success having made `k + 1` calls and
`k` sleeps, provided at least `k` retries remain. -/
theorem retryFrom_ok_of_failures (sr : PyErr → Bool)
    (call : Nat → Except PyErr String) (v : String) :
    ∀ (k a r : Nat), k ≤ r →
      (∀ i, i < k → ∃ e, call (a + i) = .error e ∧ sr e = true) →
      call (a + k) = .ok v →
      BaseClient.retryFrom sr call a r = ⟨.ok v, k + 1, k⟩ := by
  intro k
  induction k with
  | zero =>
    intro a r _ _ hsucc
    simp only [Nat.add_zero] at hsucc
    cases r <;> simp [BaseClient.retryFrom, hsucc]
  | succ k ih =>
    intro a r hkr hfail hsucc
    obtain ⟨r', rfl⟩ : ∃ r', r = r' + 1 := ⟨r - 1, by omega⟩
    obtain ⟨e, he, hre⟩ := hfail 0 (Nat.succ_pos k)
    simp only [Nat.add_zero] at he
    have hrest : ∀ i, i < k → ∃ e, call (a + 1 + i) = .error e ∧ sr e = true := by
      intro i hi
      have : a + 1 + i = a + (i + 1) := by omega
      rw [this]
      exact hfail (i + 1) (by omega)
    have hsucc' : call (a + 1 + k) = .ok v := by
      have : a + 1 + k = a + (k + 1) := by omega
      rw [this]; exact hsucc
    have := ih (a + 1) r' (by omega) hrest hsucc'
    simp [BaseClient.retryFrom, he, hre, this]

/-- Any error the loop finishes with is literally one of the underlying
call outcomes: `raise e` re-raises, nothing is wrapped. -/
theorem retryFrom_error_mem (sr : PyErr → Bool)
    (call : Nat → Except PyErr String) (e' : PyErr) :
    ∀ (r a : Nat), (BaseClient.retryFrom sr call a r).result = .error e' →
      ∃ i, a ≤ i ∧ i ≤ a + r ∧ call i = .error e' := by
  intro r
  induction r with
  | zero =>
    intro a h
    cases hc : call a with
    | ok v => simp [BaseClient.retryFrom, hc] at h
    | error e =>
      simp [BaseClient.retryFrom, hc] at h
      exact ⟨a, le_refl a, by omega, by rw [hc, h]⟩
  | succ r ih =>
    intro a h
    cases hc : call a with
    | ok v => simp [BaseClient.retryFrom, hc] at h
    | error e =>
      by_cases hre : sr e = true
      · simp [BaseClient.retryFrom, hc, hre] at h
        obtain ⟨i, hi1, hi2, hi3⟩ := ih (a + 1) h
        exact ⟨i, by omega, by omega, hi3⟩
      · simp [BaseClient.retryFrom, hc, hre] at h
        exact ⟨a, le_refl a, by omega, by rw [hc, h]⟩

/-! ### Claim theorems: retry behaviour -/

/-- C1: with `k ≤ maxRetries` leading retryable failures followed by a
success, both `prompt` and `prompt_async` return the successful
extracted text and invoke the underlying call exactly `k + 1` times. -/
theorem prompt_retry_success (sr : PyErr → Bool) (max_retries k : Nat)
    (call : Nat → Except PyErr String) (v : String)
    (hk : k ≤ max_retries)
    (hfail : ∀ i, i < k → ∃ e, call i = .error e ∧ sr e = true)
    (hsucc : call k = .ok v) :
    BaseClient.prompt sr max_retries call = ⟨.ok v, k + 1, k⟩ ∧
    BaseClient.prompt_async sr max_retries call = ⟨.ok v, k + 1, k⟩ := by
  have h := retryFrom_ok_of_failures sr call v k 0 max_retries hk
    (by simpa using hfail) (by simpa using hsucc)
  exact ⟨h, h⟩

/-- Witness for C1: `maxRetries = 2`, two retryable rate-limit failures
then `"ok"`: three calls, result `"ok"`. -/
theorem prompt_retry_success_witness :
    BaseClient.prompt OpenAIClient.should_retry 2
        (fun i => if i < 2 then .error .rateLimitError else .ok "ok") =
      ⟨.ok "ok", 2 + 1, 2⟩ ∧
    BaseClient.prompt_async OpenAIClient.should_retry 2
        (fun i => if i < 2 then .error .rateLimitError else .ok "ok") =
      ⟨.ok "ok", 2 + 1, 2⟩ :=
  prompt_retry_success OpenAIClient.should_retry 2 2
    (fun i => if i < 2 then .error .rateLimitError else .ok "ok") "ok"
    (le_refl 2)
    (fun i hi => ⟨.rateLimitError, by simp [hi], rfl⟩)
    (by norm_num)

/-- C2: a first-call error classified non-retryable means exactly one
underlying call, the error propagated at once, and no backoff sleep,
on both call paths. -/
theorem prompt_nonretryable_single_call (sr : PyErr → Bool)
    (max_retries : Nat) (call : Nat → Except PyErr String) (e : PyErr)
    (hcall : call 0 = .error e) (hnr : sr e = false) :
    BaseClient.prompt sr max_retries call = ⟨.error e, 1, 0⟩ ∧
    BaseClient.prompt_async sr max_retries call = ⟨.error e, 1, 0⟩ := by
  have h : BaseClient.retryFrom sr call 0 max_retries = ⟨.error e, 1, 0⟩ := by
    cases max_retries <;> simp [BaseClient.retryFrom, hcall, hnr]
  exact ⟨h, h⟩

/-- Witness for C2: a 404 status error against the OpenAI classifier:
one call, no sleep, the 404 propagates. -/
theorem prompt_nonretryable_single_call_witness :
    BaseClient.prompt OpenAIClient.should_retry 3
        (fun _ => .error (.apiStatusError 404)) =
      ⟨.error (.apiStatusError 404), 1, 0⟩ ∧
    BaseClient.prompt_async OpenAIClient.should_retry 3
        (fun _ => .error (.apiStatusError 404)) =
      ⟨.error (.apiStatusError 404), 1, 0⟩ :=
  prompt_nonretryable_single_call OpenAIClient.should_retry 3
    (fun _ => .error (.apiStatusError 404)) (.apiStatusError 404) rfl rfl

/-- C3 counterexample: with the OpenAI classifier a non-retryable
`APIStatusError(404)` surfaces from `prompt` as that very status error,
which is not a `GenerationError`; the claimed "fails with a
GenerationError" is false on the code, whose `raise e` re-raises the
underlying error unchanged. -/
theorem prompt_not_generation_error_cex :
    (BaseClient.prompt OpenAIClient.should_retry 3
        (fun _ => .error (.apiStatusError 404))).result =
      .error (.apiStatusError 404) ∧
    PyErr.isGenerationError (.apiStatusError 404) = false :=
  ⟨rfl, rfl⟩

/-- C3 amended: when retries are exhausted or the error is classified
non-retryable, `prompt` and `prompt_async` fail by re-raising one of
the underlying provider call errors unchanged (the `raise e` in
both wrappers); no wrapping into a distinct terminal error type
occurs. -/
theorem prompt_error_propagates_verbatim (sr : PyErr → Bool)
    (max_retries : Nat) (call : Nat → Except PyErr String) (e' : PyErr)
    (hsync : (BaseClient.prompt sr max_retries call).result = .error e' ∨
      (BaseClient.prompt_async sr max_retries call).result = .error e') :
    ∃ i, i ≤ max_retries ∧ call i = .error e' := by
  have h : (BaseClient.retryFrom sr call 0 max_retries).result = .error e' := by
    cases hsync with
    | inl h => exact h
    | inr h => exact h
  obtain ⟨i, _, hi2, hi3⟩ := retryFrom_error_mem sr call e' max_retries 0 h
  exact ⟨i, by omega, hi3⟩

/-- Witness for the amended C3: four exhausted retryable failures; the
surfaced error is one of the underlying rate-limit errors. -/
theorem prompt_error_propagates_verbatim_witness :
    ∃ i, i ≤ 3 ∧
      (fun (_ : Nat) => (.error .rateLimitError : Except PyErr String)) i =
        .error .rateLimitError :=
  prompt_error_propagates_verbatim OpenAIClient.should_retry 3
    (fun _ => .error .rateLimitError) .rateLimitError (Or.inl rfl)

/-- C4: for every attempt index, positive backoff factor and sampled
jitter (uniform in `[0, 0.1 * factor^attempt]`), the delay computed by
`_calc_backoff` lies in `[factor^attempt, factor^attempt * 1.1]`. -/
theorem calc_backoff_bounds (backoff_factor : ℚ) (attempt : Nat) (jitter : ℚ)
    (hf : 0 < backoff_factor) (hj0 : 0 ≤ jitter)
    (hj1 : jitter ≤ BaseClient.JITTER_PERCENTAGE * backoff_factor ^ attempt) :
    backoff_factor ^ attempt ≤ BaseClient.calc_backoff backoff_factor attempt jitter ∧
    BaseClient.calc_backoff backoff_factor attempt jitter ≤
      backoff_factor ^ attempt * (11 / 10) := by
  have hpow : (0 : ℚ) < backoff_factor ^ attempt := pow_pos hf attempt
  rw [BaseClient.JITTER_PERCENTAGE] at hj1
  constructor
  · simp only [BaseClient.calc_backoff]
    linarith
  · simp only [BaseClient.calc_backoff]
    linarith

/-- Witness for C4: factor 2, attempt 3, jitter 1/2: the delay 17/2
lies in `[8, 44/5]`. -/
theorem calc_backoff_bounds_witness :
    (2 : ℚ) ^ 3 ≤ BaseClient.calc_backoff 2 3 (1 / 2) ∧
    BaseClient.calc_backoff 2 3 (1 / 2) ≤ (2 : ℚ) ^ 3 * (11 / 10) :=
  calc_backoff_bounds 2 3 (1 / 2) (by norm_num) (by norm_num)
    (by norm_num [BaseClient.JITTER_PERCENTAGE])

/-! ### Claim theorems: construction-time validation -/

/-- C7 counterexample: a failing validation call (401 status) makes
`OpenAIClient.__init__` raise
`ValueError("OpenAI authentication failed: ...")` — a plain
`ValueError`, not an `AuthenticationError`; the claimed error type is
wrong on the code. -/
theorem construction_not_authentication_error_cex :
    OpenAIClient.init "key" 3 2 (.error (.apiStatusError 401)) =
      .error (.valueError "OpenAI authentication failed: status error 401") ∧
    PyErr.isAuthenticationError
      (.valueError "OpenAI authentication failed: status error 401") = false :=
  ⟨rfl, rfl⟩

/-- C7 amended: for both provider variants, a failing eager
credential-validation call makes construction itself fail — no client
state is produced — but with a `ValueError` carrying an
"authentication failed" message, not an `AuthenticationError`. -/
theorem construction_auth_failure_value_error (api_key : String)
    (max_retries : Nat) (backoff_factor : ℚ) (e : PyErr) :
    OpenAIClient.init api_key max_retries backoff_factor (.error e) =
      .error (.valueError ("OpenAI authentication failed: " ++ pyStr e)) ∧
    AnthropicClient.init api_key max_retries backoff_factor (.error e) =
      .error (.valueError ("Anthropic authentication failed: " ++ pyStr e)) :=
  ⟨rfl, rfl⟩

/-! ### Claim theorems: conversation agent -/

/-- C6: on success `ConversationAgent.prompt` returns the reply and
extends the history by exactly the user message then the assistant
reply, the old history left as an unchanged prefix; on failure the
history keeps the appended user message only. -/
theorem conversation_prompt_spec (client : List Message → Except PyErr String)
    (history : List Message) (message r : String) (e : PyErr) :
    (client (history ++ [⟨"user", message⟩]) = .ok r →
      ConversationAgent.prompt client history message =
        (.ok r, history ++ [⟨"user", message⟩, ⟨"assistant", r⟩])) ∧
    (client (history ++ [⟨"user", message⟩]) = .error e →
      ConversationAgent.prompt client history message =
        (.error e, history ++ [⟨"user", message⟩])) := by
  constructor
  · intro h
    simp [ConversationAgent.prompt, h]
  · intro h
    simp [ConversationAgent.prompt, h]

/-- Witness for C6: a stub client answering `"4"` to `"2+2?"` on a
system-seeded history. -/
theorem conversation_prompt_spec_witness :
    ConversationAgent.prompt (fun _ => .ok "4") [⟨"system", "be terse"⟩] "2+2?" =
      (.ok "4",
        [⟨"system", "be terse"⟩, ⟨"user", "2+2?"⟩, ⟨"assistant", "4"⟩]) :=
  (conversation_prompt_spec (fun _ => .ok "4") [⟨"system", "be terse"⟩] "2+2?"
    "4" (.valueError "x")).1 rfl

/-- C10: an empty-string system prompt seeds nothing (Python falsiness
of `""`); a system message is present after construction iff the
supplied prompt string is non-empty. -/
theorem conversation_init_spec :
    ConversationAgent.init_messages (some "") = [] ∧
    ∀ s : String,
      ((∃ m, m ∈ ConversationAgent.init_messages (some s) ∧ m.role = "system") ↔
        s ≠ "") := by
  constructor
  · rfl
  · intro s
    constructor
    · rintro ⟨m, hm, _⟩ hs
      subst hs
      simp [ConversationAgent.init_messages, ConversationAgent.pyTruthy] at hm
      exact absurd hm.1 (by decide)
    · intro hs
      refine ⟨⟨"system", s⟩, ?_, rfl⟩
      have hempty : s.isEmpty = false :=
        Bool.eq_false_iff.mpr (fun h => hs ((String.isEmpty_iff s).mp h))
      simp [ConversationAgent.init_messages, ConversationAgent.pyTruthy, hempty]

/-! ### Helper lemmas about message conversion -/

theorem Message.eta (m : Message) : (⟨m.role, m.content⟩ : Message) = m := rfl

theorem convert_foldl_snd (l : List Message) :
    ∀ (s : Option String) (acc : List Message),
      (l.foldl AnthropicClient.convertStep (s, acc)).2 =
        acc ++ l.filter (fun m => !(m.role == "system")) := by
  induction l with
  | nil => intro s acc; simp
  | cons m rest ih =>
    intro s acc
    by_cases hm : m.role = "system"
    · simp [AnthropicClient.convertStep, hm, ih]
    · simp [AnthropicClient.convertStep, hm, ih, Message.eta]

theorem convert_foldl_fst (l : List Message) :
    ∀ (s : Option String) (acc : List Message),
      (l.foldl AnthropicClient.convertStep (s, acc)).1 =
        ((l.filter (fun m => m.role == "system")).getLast?.map Message.content).or s := by
  induction l with
  | nil => intro s acc; simp
  | cons m rest ih =>
    intro s acc
    by_cases hm : m.role = "system"
    · cases hr : rest.filter (fun m => m.role == "system") with
      | nil =>
        simp [AnthropicClient.convertStep, hm, ih, hr]
      | cons x xs =>
        obtain ⟨y, hy⟩ := Option.isSome_iff_exists.mp
          (List.getLast?_isSome.mpr (List.cons_ne_nil x xs))
        simp [AnthropicClient.convertStep, hm, ih, hr, List.getLast?_cons_cons,
          hy, Option.or]
    · simp [AnthropicClient.convertStep, hm, ih]

/-- C9: the Anthropic conversion drops every system-role message
wherever it sits, the top-level `system` field of the outgoing request is
the content of the last system-role message (absent when there is
none), and the remaining messages keep their relative order. -/
theorem anthropic_convert_spec (messages : List Message) (model : String) :
    AnthropicClient.convert_messages messages =
      ((messages.filter (fun m => m.role == "system")).getLast?.map Message.content,
        messages.filter (fun m => !(m.role == "system"))) ∧
    AnthropicClient.prompt_sync_request messages model =
      ⟨(messages.filter (fun m => m.role == "system")).getLast?.map Message.content,
        messages.filter (fun m => !(m.role == "system")), model⟩ := by
  have h1 := convert_foldl_fst messages none []
  have h2 := convert_foldl_snd messages none []
  simp only [Option.or_none] at h1
  simp only [List.nil_append] at h2
  have hcm : AnthropicClient.convert_messages messages =
      ((messages.filter (fun m => m.role == "system")).getLast?.map Message.content,
        messages.filter (fun m => !(m.role == "system"))) := by
    rw [AnthropicClient.convert_messages]
    exact Prod.ext h1 h2
  refine ⟨hcm, ?_⟩
  rw [AnthropicClient.prompt_sync_request, hcm]

/-! ### Helper lemmas about user-message counting and the backward scan -/

theorem countUser_cons (m : Message) (l : List Message) :
    ConversationAgent.countUser (m :: l) =
      ConversationAgent.countUser l + (if m.role = "user" then 1 else 0) := by
  by_cases h : m.role = "user" <;>
    simp [ConversationAgent.countUser, List.filter_cons, h]

theorem countUser_append (l₁ l₂ : List Message) :
    ConversationAgent.countUser (l₁ ++ l₂) =
      ConversationAgent.countUser l₁ + ConversationAgent.countUser l₂ := by
  simp [ConversationAgent.countUser, List.filter_append]

theorem countUser_reverse (l : List Message) :
    ConversationAgent.countUser l.reverse = ConversationAgent.countUser l := by
  simp [ConversationAgent.countUser, List.filter_reverse]

theorem findDropIdx_eq_none (n : Nat) :
    ∀ (l : List Message) (found : Nat),
      ConversationAgent.countUser l + found < n →
      ConversationAgent.findDropIdx n l found = none := by
  intro l
  induction l with
  | nil => intro found _; rfl
  | cons m rest ih =>
    intro found h
    rw [countUser_cons] at h
    by_cases hm : m.role = "user"
    · rw [if_pos hm] at h
      have h1 : ¬ found + 1 = n := by omega
      simp only [ConversationAgent.findDropIdx, hm, if_true, if_pos, h1, if_false,
        if_neg, reduceIte]
      exact ih (found + 1) (by omega)
    · rw [if_neg hm] at h
      simp only [ConversationAgent.findDropIdx, hm, if_false, if_neg, reduceIte]
      exact ih found (by omega)

theorem findDropIdx_eq_some (n : Nat) :
    ∀ (l : List Message) (found i : Nat),
      ConversationAgent.findDropIdx n l found = some i →
      ∃ pre m suf, l = pre ++ m :: suf ∧ i = suf.length ∧ m.role = "user" ∧
        found + ConversationAgent.countUser (pre ++ [m]) = n := by
  intro l
  induction l with
  | nil =>
    intro found i h
    exact absurd h (by simp [ConversationAgent.findDropIdx])
  | cons m rest ih =>
    intro found i h
    by_cases hm : m.role = "user"
    · by_cases hf : found + 1 = n
      · simp only [ConversationAgent.findDropIdx, hm, hf, reduceIte,
          Option.some.injEq] at h
        refine ⟨[], m, rest, by simp, h.symm, hm, ?_⟩
        have : ConversationAgent.countUser ([] ++ [m]) = 1 := by
          simp [ConversationAgent.countUser, hm]
        omega
      · simp only [ConversationAgent.findDropIdx, hm, hf, reduceIte] at h
        obtain ⟨pre, m', suf, hl, hi, hm', hcount⟩ := ih (found + 1) i h
        refine ⟨m :: pre, m', suf, by rw [hl]; rfl, hi, hm', ?_⟩
        have : ConversationAgent.countUser ((m :: pre) ++ [m']) =
            ConversationAgent.countUser (pre ++ [m']) + 1 := by
          rw [List.cons_append, countUser_cons, if_pos hm]
        omega
    · simp only [ConversationAgent.findDropIdx, hm, reduceIte] at h
      obtain ⟨pre, m', suf, hl, hi, hm', hcount⟩ := ih found i h
      refine ⟨m :: pre, m', suf, by rw [hl]; rfl, hi, hm', ?_⟩
      have : ConversationAgent.countUser ((m :: pre) ++ [m']) =
          ConversationAgent.countUser (pre ++ [m']) := by
        rw [List.cons_append, countUser_cons, if_neg hm]
        omega
      omega

theorem findDropIdx_isSome (n : Nat) :
    ∀ (l : List Message) (found : Nat), found < n →
      n ≤ ConversationAgent.countUser l + found →
      (ConversationAgent.findDropIdx n l found).isSome := by
  intro l
  induction l with
  | nil =>
    intro found h1 h2
    simp [ConversationAgent.countUser] at h2
    omega
  | cons m rest ih =>
    intro found h1 h2
    rw [countUser_cons] at h2
    by_cases hm : m.role = "user"
    · by_cases hf : found + 1 = n
      · simp [ConversationAgent.findDropIdx, hm, hf]
      · rw [if_pos hm] at h2
        simp only [ConversationAgent.findDropIdx, hm, hf, reduceIte]
        exact ih (found + 1) (by omega) (by omega)
    · rw [if_neg hm] at h2
      simp only [ConversationAgent.findDropIdx, hm, reduceIte]
      exact ih found h1 (by omega)

/-- C5: `drop_exchanges(n)` is a no-op for `n ≤ 0` and when the history
holds fewer than `n` user-role messages; otherwise it truncates to the
prefix ending just before the n-th user-role message counted from the
end: the result is `take i` for an index `i` holding a user-role
message, the length of the result is `i`, and the dropped tail contains
exactly `n` user-role messages. -/
theorem drop_exchanges_spec (messages : List Message) (n : Int) :
    (n ≤ 0 → ConversationAgent.drop_exchanges messages n = messages) ∧
    (1 ≤ n → ConversationAgent.countUser messages < n.toNat →
      ConversationAgent.drop_exchanges messages n = messages) ∧
    (1 ≤ n → n.toNat ≤ ConversationAgent.countUser messages →
      ∃ i, i < messages.length ∧
        ConversationAgent.drop_exchanges messages n = messages.take i ∧
        (ConversationAgent.drop_exchanges messages n).length = i ∧
        (messages.drop i).head?.map Message.role = some "user" ∧
        ConversationAgent.countUser (messages.drop i) = n.toNat) := by
  refine ⟨?_, ?_, ?_⟩
  · intro hn
    simp [ConversationAgent.drop_exchanges, hn]
  · intro hn hcount
    have hn' : ¬ n ≤ 0 := by omega
    have hnone : ConversationAgent.findDropIdx n.toNat messages.reverse 0 = none := by
      apply findDropIdx_eq_none
      rw [countUser_reverse]
      omega
    simp [ConversationAgent.drop_exchanges, hn', hnone]
  · intro hn hcount
    have hn' : ¬ n ≤ 0 := by omega
    have h1 : (0 : Nat) < n.toNat := by omega
    have hsome : (ConversationAgent.findDropIdx n.toNat messages.reverse 0).isSome := by
      apply findDropIdx_isSome n.toNat messages.reverse 0 h1
      rw [countUser_reverse]
      omega
    obtain ⟨i, hi⟩ := Option.isSome_iff_exists.mp hsome
    obtain ⟨pre, m, suf, hrev, hidx, hm, hcnt⟩ :=
      findDropIdx_eq_some n.toNat messages.reverse 0 i hi
    have hmsg : messages = suf.reverse ++ m :: pre.reverse := by
      have h := congrArg List.reverse hrev
      simpa [List.reverse_append, List.reverse_cons, List.append_assoc] using h
    have hilen : suf.reverse.length = i := by simp [hidx]
    have hde : ConversationAgent.drop_exchanges messages n = messages.take i := by
      simp [ConversationAgent.drop_exchanges, hn', hi]
    have htake : messages.take i = suf.reverse := by
      rw [hmsg, ← hilen]
      exact List.take_left suf.reverse (m :: pre.reverse)
    have hdrop : messages.drop i = m :: pre.reverse := by
      rw [hmsg, ← hilen]
      exact List.drop_left suf.reverse (m :: pre.reverse)
    refine ⟨i, ?_, hde, ?_, ?_, ?_⟩
    · rw [hmsg]
      simp only [List.length_append, List.length_cons]
      omega
    · rw [hde, htake, hilen]
    · rw [hdrop]
      simp [hm]
    · rw [hdrop]
      have hcu : ConversationAgent.countUser (m :: pre.reverse) =
          ConversationAgent.countUser pre + 1 := by
        rw [countUser_cons, if_pos hm, countUser_reverse]
      have hcu2 : ConversationAgent.countUser (pre ++ [m]) =
          ConversationAgent.countUser pre + 1 := by
        rw [countUser_append]
        have : ConversationAgent.countUser [m] = 1 := by
          simp [ConversationAgent.countUser, hm]
        omega
      omega

/-- Witness for C5: `dropExchanges(1)` on
`[user "a", assistant "b", user "c", assistant "d"]` truncates at index
2, leaving `[user "a", assistant "b"]`. -/
theorem drop_exchanges_spec_witness :
    ∃ i,
      i < ([⟨"user", "a"⟩, ⟨"assistant", "b"⟩, ⟨"user", "c"⟩,
        ⟨"assistant", "d"⟩] : List Message).length ∧
      ConversationAgent.drop_exchanges
          [⟨"user", "a"⟩, ⟨"assistant", "b"⟩, ⟨"user", "c"⟩, ⟨"assistant", "d"⟩] 1 =
        List.take i
          [⟨"user", "a"⟩, ⟨"assistant", "b"⟩, ⟨"user", "c"⟩, ⟨"assistant", "d"⟩] ∧
      (ConversationAgent.drop_exchanges
          [⟨"user", "a"⟩, ⟨"assistant", "b"⟩, ⟨"user", "c"⟩,
            ⟨"assistant", "d"⟩] 1).length = i ∧
      (List.drop i
          [⟨"user", "a"⟩, ⟨"assistant", "b"⟩, ⟨"user", "c"⟩,
            ⟨"assistant", "d"⟩]).head?.map Message.role = some "user" ∧
      ConversationAgent.countUser
          (List.drop i
            [⟨"user", "a"⟩, ⟨"assistant", "b"⟩, ⟨"user", "c"⟩,
              ⟨"assistant", "d"⟩]) = (1 : Int).toNat :=
  (drop_exchanges_spec
      [⟨"user", "a"⟩, ⟨"assistant", "b"⟩, ⟨"user", "c"⟩, ⟨"assistant", "d"⟩]
      1).2.2 (by norm_num) (by decide)

/-! ### Helper lemmas about the batch gather -/

theorem gather_foldl_length (tasks : List (Except PyErr String)) :
    ∀ (order : List Nat) (slots : List (Option (Except PyErr String))),
      (order.foldl (BatchAgent.gatherStep tasks) slots).length = slots.length := by
  intro order
  induction order with
  | nil => intro slots; rfl
  | cons a rest ih =>
    intro slots
    rw [List.foldl_cons, ih]
    unfold BatchAgent.gatherStep
    cases tasks.get? a <;> simp

theorem gather_foldl_not_mem (tasks : List (Except PyErr String)) :
    ∀ (order : List Nat) (slots : List (Option (Except PyErr String))) (j : Nat),
      j ∉ order →
      (order.foldl (BatchAgent.gatherStep tasks) slots).get? j = slots.get? j := by
  intro order
  induction order with
  | nil => intro slots j _; rfl
  | cons a rest ih =>
    intro slots j hj
    have hja : j ≠ a := fun h => hj (h ▸ List.mem_cons_self a rest)
    have hjrest : j ∉ rest := fun h => hj (List.mem_cons_of_mem a h)
    rw [List.foldl_cons, ih _ j hjrest]
    unfold BatchAgent.gatherStep
    cases tasks.get? a with
    | none => rfl
    | some r => exact List.get?_set_ne (some r) slots hja.symm

theorem gather_foldl_mem (tasks : List (Except PyErr String)) :
    ∀ (order : List Nat) (slots : List (Option (Except PyErr String)))
      (j : Nat) (r : Except PyErr String),
      tasks.get? j = some r → j ∈ order → slots.length = tasks.length →
      (order.foldl (BatchAgent.gatherStep tasks) slots).get? j = some (some r) := by
  intro order
  induction order with
  | nil =>
    intro slots j r _ hmem _
    exact absurd hmem (List.not_mem_nil j)
  | cons a rest ih =>
    intro slots j r htask hmem hlen
    rw [List.foldl_cons]
    have hstep_len : (BatchAgent.gatherStep tasks slots a).length = tasks.length := by
      unfold BatchAgent.gatherStep
      cases tasks.get? a <;> simp [hlen]
    by_cases hjrest : j ∈ rest
    · exact ih _ j r htask hjrest hstep_len
    · have hja : j = a := by
        rcases List.mem_cons.mp hmem with h | h
        · exact h
        · exact absurd h hjrest
      subst hja
      rw [gather_foldl_not_mem tasks rest _ j hjrest]
      unfold BatchAgent.gatherStep
      rw [htask]
      have hjlt : j < slots.length := by
        rw [hlen]
        exact List.get?_eq_some.mp htask |>.fst
      exact List.get?_set_eq_of_lt (some r) hjlt

/-- C8: for every list of prompts and every completion order of the
concurrent pool (any permutation of the task indices), `batch_prompt`
yields a fully filled, index-aligned result: slot `i` holds exactly the
reply of the client to the fresh single-message user-role history built from
`prompts[i]`, which shares no state with the other items. -/
theorem batch_prompt_order_spec (client : List Message → Except PyErr String)
    (prompts : List String) (order : List Nat)
    (hperm : order.Perm (List.range prompts.length)) :
    (BatchAgent.batch_prompt client prompts order).length = prompts.length ∧
    ∀ (j : Nat) (p : String), prompts.get? j = some p →
      (BatchAgent.batch_prompt client prompts order).get? j =
        some (some (client [⟨"user", p⟩])) := by
  constructor
  · unfold BatchAgent.batch_prompt BatchAgent.completeTasks
    rw [gather_foldl_length]
    simp
  · intro j p hp
    have hjlt : j < prompts.length := List.get?_eq_some.mp hp |>.fst
    have htask : (prompts.map (BatchAgent.itemTask client)).get? j =
        some (client [⟨"user", p⟩]) := by
      rw [List.get?_map, hp]
      rfl
    have hmem : j ∈ order := by
      rw [hperm.mem_iff, List.mem_range]
      exact hjlt
    unfold BatchAgent.batch_prompt BatchAgent.completeTasks
    exact gather_foldl_mem (prompts.map (BatchAgent.itemTask client)) order _
      j (client [⟨"user", p⟩]) htask hmem (by simp)

/-- Witness for C8: prompts `["a", "b", "c"]` completing in order
`2, 0, 1` still put the reply to `"b"` in slot 1. -/
theorem batch_prompt_order_spec_witness :
    (BatchAgent.batch_prompt
        (fun h => .ok ((h.headD ⟨"user", ""⟩).content ++ "!"))
        ["a", "b", "c"] [2, 0, 1]).get? 1 =
      some (some (.ok "b!")) :=
  (batch_prompt_order_spec
      (fun h => .ok ((h.headD ⟨"user", ""⟩).content ++ "!"))
      ["a", "b", "c"] [2, 0, 1] (by decide)).2 1 "b" rfl

end Q
